import Mathlib

/-!
# xbasic serial transport: a shallow embedding

Embedding of `src/common/osint_linux.c` (the C serial driver) and of
`xbasic-qt/PortListener.cpp` (the Qt terminal adapter).

The C code keeps one global, `hSerial`, and talks to the operating system.
The process is a record `Proc` (the global handle, the set of open
descriptors, the state of the DTR line, the number of clock samples taken so
far and the trace of calls made).  What the operating system answers to a call
on an open descriptor is an argument of the embedded function; a call on a
descriptor that is not open fails with `-1` (EBADF).
-/

namespace XBasic

/-! ## Constants of the system headers (Linux values) -/

def O_RDWR : Nat := 2
def O_NOCTTY : Nat := 256
def B38400 : Nat := 15
def B57600 : Nat := 4097
def B115200 : Nat := 4098
def CS8 : Nat := 48
def CREAD : Nat := 128
def CLOCAL : Nat := 2048
def IGNPAR : Nat := 4
def ICRNL : Nat := 256
def TCIFLUSH : Nat := 0
def TCSANOW : Nat := 0
def TIOCM_DTR : Nat := 2
def NCCS : Nat := 32
def INT_MAX : Int := 2147483647
def INT_MIN : Int := -2147483648

/-- The `struct termios` handed to `tcsetattr`. -/
structure Termios where
  c_iflag : Nat
  c_oflag : Nat
  c_cflag : Nat
  c_lflag : Nat
  c_line : Nat
  c_cc : List Nat
  c_ispeed : Nat
  c_ospeed : Nat
  deriving DecidableEq, Repr

/-- The structure after `bzero(&sparm, sizeof(sparm))`. -/
def Termios.zero : Termios :=
  { c_iflag := 0, c_oflag := 0, c_cflag := 0, c_lflag := 0, c_line := 0,
    c_cc := List.replicate NCCS 0, c_ispeed := 0, c_ospeed := 0 }

/-- The two modem-control requests used by `hwreset`. -/
inductive IoctlReq where
  | TIOCMBIS
  | TIOCMBIC
  deriving DecidableEq, Repr

/-- One call made by the program to the operating system or the C library,
with its arguments and (where the program reads it) its result. -/
inductive Call where
  | sysopen (port : String) (flags : Nat) (res : Int)
  | sysclose (fd : Int) (res : Int)
  | tcflush (fd : Int) (queue : Nat)
  | tcsetattr (fd : Int) (action : Nat) (t : Termios)
  | sysread (fd : Int) (n : Int) (res : Int)
  | syswrite (fd : Int) (n : Int) (res : Int)
  | syspoll (fd : Int) (timeout : Int) (res : Int)
  | sysselect (usec : Int)
  | ioctl (fd : Int) (req : IoctlReq) (bits : Nat) (res : Int)
  | ftime (ms : Nat)
  | printf (msg : String)
  | fflush
  | sysexit (status : Int)
  deriving DecidableEq, Repr

/-- The process: the global `hSerial`, the descriptors that are open, the DTR
line as driven by the modem-control requests that succeeded, the number of
clock samples taken, and the calls made so far (oldest first). -/
structure Proc where
  hSerial : Int
  fds : List Int
  dtr : Bool
  tick : Nat
  trace : List Call
  deriving DecidableEq, Repr

/-- How a C function that may call `exit` ends. -/
inductive Outcome where
  | ret (v : Int)
  | exited (status : Int)
  deriving DecidableEq, Repr

/-- Narrowing of a `ssize_t`/`long` value to `int` (two's complement). -/
def toInt32 (x : Int) : Int := (x + 2147483648) % 4294967296 - 2147483648

/-- Appends a call to the trace. -/
def Proc.log (p : Proc) (c : Call) : Proc := { p with trace := p.trace ++ [c] }

/-! ## The operating system -/

/-- The call `open(port, flags)`: `os` is the answer of the system, `none` when
the target cannot be opened, `some fd` when it is opened as descriptor `fd`. -/
def sysOpen (p : Proc) (port : String) (flags : Nat) (os : Option Nat) : Int × Proc :=
  match os with
  | none => (-1, p.log (Call.sysopen port flags (-1)))
  | some fd =>
    ((fd : Int), { p with fds := p.fds ++ [(fd : Int)],
                          trace := p.trace ++ [Call.sysopen port flags (fd : Int)] })

/-- The call `close(fd)`: releases an open descriptor, fails on any other. -/
def sysClose (p : Proc) (fd : Int) : Int × Proc :=
  if fd ∈ p.fds then
    (0, { p with fds := p.fds.filter (fun d => d ≠ fd),
                 trace := p.trace ++ [Call.sysclose fd 0] })
  else (-1, p.log (Call.sysclose fd (-1)))

/-- The call `tcflush(fd, queue)`; its result is not read by the program. -/
def sysTcflush (p : Proc) (fd : Int) (queue : Nat) : Proc := p.log (Call.tcflush fd queue)

/-- The call `tcsetattr(fd, action, &t)`; its result is not read by the program. -/
def sysTcsetattr (p : Proc) (fd : Int) (action : Nat) (t : Termios) : Proc :=
  p.log (Call.tcsetattr fd action t)

/-- The call `read(fd, buff, n)`: `dev` is what the device answers on an open
descriptor; a descriptor that is not open gives `-1`. -/
def sysRead (p : Proc) (fd : Int) (n : Int) (dev : Int) : Int × Proc :=
  let r : Int := if fd ∈ p.fds then dev else -1
  (r, p.log (Call.sysread fd n r))

/-- The call `write(fd, buff, n)`: `dev` is what the device answers on an open
descriptor; a descriptor that is not open gives `-1`. -/
def sysWrite (p : Proc) (fd : Int) (n : Int) (dev : Int) : Int × Proc :=
  let r : Int := if fd ∈ p.fds then dev else -1
  (r, p.log (Call.syswrite fd n r))

/-- The call `poll(&set, 1, timeout)` with `set.fd = fd`: `dev` is the answer
for an open descriptor; a non-negative descriptor that is not open is reported
at once (POLLNVAL, counted in the result); a negative one is ignored and the
call times out. -/
def sysPoll (p : Proc) (fd : Int) (timeout : Int) (dev : Int) : Int × Proc :=
  let r : Int := if fd ∈ p.fds then dev else if 0 ≤ fd then 1 else 0
  (r, p.log (Call.syspoll fd timeout r))

/-- The call `ioctl(fd, req, &bits)` for the modem-control requests: it
succeeds when the descriptor is open and the device accepts the request
(`ok`), and then sets (TIOCMBIS) or clears (TIOCMBIC) the DTR line. -/
def sysIoctl (p : Proc) (fd : Int) (req : IoctlReq) (bits : Nat) (ok : Bool) : Int × Proc :=
  if fd ∈ p.fds ∧ ok = true then
    (0, { p with dtr := (match req with
                         | IoctlReq.TIOCMBIS => true
                         | IoctlReq.TIOCMBIC => false),
                 trace := p.trace ++ [Call.ioctl fd req bits 0] })
  else (-1, p.log (Call.ioctl fd req bits (-1)))

/-- The call `ftime(&t)`: the next sample of the millisecond clock `clk`
(milliseconds since the epoch, `t.time * 1000 + t.millitm`). -/
def sysFtime (clk : Nat → Nat) (p : Proc) : Nat × Proc :=
  (clk p.tick, { p with tick := p.tick + 1, trace := p.trace ++ [Call.ftime (clk p.tick)] })

/-- The field `millitm` of a clock sample. -/
def millitm (t : Nat) : Nat := t % 1000

/-! ## `osint_linux.c` -/

/-- The function `serial_done`: `close(hSerial)`. -/
def serial_done (p : Proc) : Proc := (sysClose p p.hSerial).2

/-- The function `serial_init(port, baud)`. -/
def serial_init (p : Proc) (port : String) (baud : Nat) (os : Option Nat) : Outcome × Proc :=
  let (h, p1) := sysOpen p port (O_RDWR ||| O_NOCTTY) os
  let p1 : Proc := { p1 with hSerial := h }
  if p1.hSerial = -1 then
    let p2 := p1.log (Call.printf "Invalid file handle for serial port '%s'\n")
    let p3 := p2.log (Call.printf "Error '%s'\n")
    (Outcome.ret 0, p3)
  else
    let tbaud : Option Nat :=
      if baud = 0 then some B115200
      else if baud = 115200 then some B115200
      else if baud = 57600 then some B57600
      else if baud = 38400 then some B38400
      else none
    match tbaud with
    | none =>
      let p2 := p1.log (Call.printf
        "Unsupported baudrate. Use /dev/tty*:115200, /dev/tty*:57600, or /dev/tty*:38400\n")
      let p3 := serial_done p2
      (Outcome.exited 2, p3.log (Call.sysexit 2))
    | some tbaud =>
      let sparm : Termios :=
        { Termios.zero with
            c_cflag := tbaud ||| CS8 ||| CLOCAL ||| CREAD,
            c_iflag := IGNPAR ||| ICRNL,
            c_oflag := 0,
            c_lflag := 0 }
      let p2 := sysTcflush p1 p1.hSerial TCIFLUSH
      let p3 := sysTcsetattr p2 p2.hSerial TCSANOW sparm
      (Outcome.ret p3.hSerial, p3)

/-- The function `rx(buff, n)`. -/
def rx (p : Proc) (n : Int) (dev : Int) : Int × Proc :=
  let (bytes, p1) := sysRead p p.hSerial n dev
  if bytes < 1 then (0, p1)
  else (toInt32 bytes, p1)

/-- The function `tx(buff, n)`. -/
def tx (p : Proc) (n : Int) (dev : Int) : Int × Proc :=
  let (bytes, p1) := sysWrite p p.hSerial n dev
  if bytes ≠ n then
    (0, p1.log (Call.printf "Error writing port\n"))
  else (toInt32 bytes, p1)

/-- The function `txwu(buff, n, waitu)`. -/
def txwu (p : Proc) (n : Int) (waitu : Int) (dev : Int) : Int × Proc :=
  let (bytes, p1) := sysWrite p p.hSerial n dev
  if bytes ≠ n then
    (0, p1.log (Call.printf "Error writing port\n"))
  else
    let p2 := p1.log (Call.sysselect waitu)
    (toInt32 bytes, p2)

/-- The function `rx_timeout(buff, n, timeout)`.  The macro `SERIAL_TIMEOUT`
comes from `osint.h`, which is not among the sources: it is the parameter
`serialTimeout`. -/
def rx_timeout (serialTimeout : Int) (p : Proc) (n : Int) (timeout : Int)
    (pollDev : Int) (readDev : Int) : Int × Proc :=
  let bytes0 : Int := 0
  let (pr, p1) := sysPoll p p.hSerial timeout pollDev
  let (bytes, p2) :=
    if pr > 0 then
      let (b, q) := sysRead p1 p1.hSerial n readDev
      (b, q.log Call.fflush)
    else (bytes0, p1)
  (toInt32 (if bytes > 0 then bytes else serialTimeout), p2)

/-- The inner loop of `msleep`: `do ftime(&t1) while (t1.millitm == t0.millitm)`.
The fuel bounds the number of samples; `none` when it runs out. -/
def msleepInner (clk : Nat → Nat) (t0 : Nat) : Nat → Proc → Option Proc
  | 0, _ => none
  | fuel + 1, p =>
    let (t1, p1) := sysFtime clk p
    if millitm t1 = millitm t0 then msleepInner clk t0 fuel p1
    else some p1

/-- The function `msleep(ms)`: the outer `do ... while (ms-- > 0)`. -/
def msleep (clk : Nat → Nat) : Nat → Int → Proc → Option Proc
  | 0, _, _ => none
  | fuel + 1, ms, p =>
    let (t0, p1) := sysFtime clk p
    match msleepInner clk t0 fuel p1 with
    | none => none
    | some p2 =>
      if ms > 0 then msleep clk fuel (ms - 1) p2
      else some p2

/-- The function `hwreset()`; `ok1` and `ok2` tell whether the device accepts
the two modem-control requests. -/
def hwreset (clk : Nat → Nat) (fuel : Nat) (p : Proc) (ok1 ok2 : Bool) : Option Proc :=
  let cmd := TIOCM_DTR
  let p1 := (sysIoctl p p.hSerial IoctlReq.TIOCMBIS cmd ok1).2
  match msleep clk fuel 25 p1 with
  | none => none
  | some p2 =>
    let p3 := (sysIoctl p2 p2.hSerial IoctlReq.TIOCMBIC cmd ok2).2
    msleep clk fuel 100 p3

/-! ## `PortListener.cpp` -/

/-- A `QString`: a sequence of 16-bit code units.  A `char` becomes the code
unit of the same value (Latin-1). -/
abbrev QString := List Nat

/-- The conversion `QString(const char*)`: the characters before the first NUL. -/
def QString.ofCString (buff : List Nat) : QString := buff.takeWhile (fun c => c ≠ 0)

/-- The method `QString::indexOf(ch)`: index of the first occurrence, or `-1`. -/
def QString.indexOf (s : QString) (ch : Nat) : Int :=
  if ch ∈ s then (List.indexOf ch s : Int) else -1

/-- The method `QString::mid(position, n)`. -/
def QString.mid (s : QString) (position : Int) (n : Int) : QString :=
  if position ≥ s.length then []
  else
    let n := if n < 0 then (s.length : Int) - position else n
    let (position, n) := if position < 0 then ((0 : Int), n + position) else (position, n)
    let n := if n + position > s.length then (s.length : Int) - position else n
    (s.drop position.toNat).take n.toNat

/-- The serial port object of the Qt adapter: its name, the settings made on
it (`none`: left at the default of the library), whether it is open, and
whether its `readyRead` signal is connected to `onReadyRead`. -/
structure QextSerialPort where
  portName : String
  eventDriven : Bool
  baudRate : Option Nat
  flowOff : Option Bool
  parityNone : Option Bool
  dataBits : Option Nat
  stopBits : Option Nat
  isOpen : Bool
  connected : Bool
  deriving DecidableEq, Repr

/-- What `PortListener` does with port objects. -/
inductive PortEvent where
  | disconnectReadyRead (portName : String)
  | deletePort (portName : String)
  | newPort (portName : String)
  | connectReadyRead (portName : String)
  deriving DecidableEq, Repr

/-- The object `PortListener`: the pointer `port` (`none` for NULL), the text
of the terminal window (`none` when no editor is set), and the port objects it
created, destroyed and wired so far. -/
structure PortListener where
  port : Option QextSerialPort
  textEditor : Option QString
  events : List PortEvent
  deriving DecidableEq, Repr

/-- The part of `PortListener::init` after the check of the present port. -/
def PortListener.initNew (l : PortListener) (portName : String) (baud : Nat) : PortListener :=
  let prt : QextSerialPort :=
    { portName := portName, eventDriven := true, baudRate := none, flowOff := none,
      parityNone := none, dataBits := none, stopBits := none, isOpen := false,
      connected := false }
  let evs := l.events ++ [PortEvent.newPort portName]
  let prt := { prt with baudRate := some baud }
  let prt := { prt with flowOff := some true }
  let prt := { prt with parityNone := some true }
  let prt := { prt with dataBits := some 8 }
  let prt := { prt with stopBits := some 1 }
  let prt := { prt with connected := true }
  { l with port := some prt, events := evs ++ [PortEvent.connectReadyRead portName] }

/-- The method `PortListener::init(portName, baud)`. -/
def PortListener.init (l : PortListener) (portName : String) (baud : Nat) : PortListener :=
  match l.port with
  | some prt =>
    if prt.portName = portName then l
    else
      let l1 := { l with events := l.events ++
        [PortEvent.disconnectReadyRead prt.portName, PortEvent.deletePort prt.portName] }
      PortListener.initNew l1 portName baud
  | none => PortListener.initNew l portName baud

/-- The method `PortListener::open()`; `ok` is the answer of the port. -/
def PortListener.open (l : PortListener) (ok : Bool) : Bool × PortListener :=
  match l.textEditor with
  | none => (false, l)
  | some _ =>
    match l.port with
    | none => (false, l)
    | some prt => (ok, { l with port := some { prt with isOpen := ok } })

/-- The method `PortListener::close()`. -/
def PortListener.close (l : PortListener) : PortListener :=
  match l.port with
  | none => l
  | some prt =>
    if prt.isOpen then { l with port := some { prt with isOpen := false } }
    else l

/-- The slow path of `onReadyRead`: one step of the loop over `buff[n]`. -/
def onReadyReadStep (text : QString) (c : Nat) : QString :=
  let tlen : Int := text.length
  if c = 8 then QString.mid text 0 (tlen - 1)
  else text ++ [c]

/-- The method `PortListener::onReadyRead()` on the text of the terminal
window: `rxq` are the bytes waiting in the port, `readOk` tells whether
`port->read` succeeds.  Gives the new text and the bytes left in the port. -/
def onReadyRead (text : QString) (rxq : List Nat) (readOk : Bool) : QString × List Nat :=
  let blen : Nat := 1024
  let len : Nat := rxq.length
  let len := if len > blen then blen else len
  let ret : Int := if readOk then (len : Int) else -1
  if ret > -1 then
    let received := rxq.take len
    let buff := received ++ [0]
    let sbuff := QString.ofCString buff
    if QString.indexOf sbuff 8 < 0 then
      (text ++ QString.ofCString buff, rxq.drop len)
    else
      (received.foldl onReadyReadStep text, rxq.drop len)
  else (text, rxq)

/-- The rendering in the words of the specification: the bytes are processed
one by one, a backspace deletes the last character (an empty text stays
empty), any other byte is appended. -/
def specRender (text : QString) (bytes : List Nat) : QString :=
  bytes.foldl (fun t b => if b = 8 then t.dropLast else t ++ [b]) text

/-! ## Observations and example states used in the statements -/

/-- The state used in the concrete evaluations: nothing open yet. -/
def procInit : Proc := { hSerial := 0, fds := [0, 1, 2], dtr := false, tick := 0, trace := [] }

/-- A state with the serial device open as descriptor 3. -/
def procOpen3 : Proc := { hSerial := 3, fds := [0, 1, 2, 3], dtr := false, tick := 0, trace := [] }

/-- An example clock: it advances by one millisecond every second sample. -/
def halfClock : Nat → Nat := fun k => k / 2

/-- The calls made by sampling the clock at the indices `i, ..., j - 1`. -/
def samples (clk : Nat → Nat) (i j : Nat) : List Call :=
  (List.range' i (j - i)).map (fun k => Call.ftime (clk k))

/-- What a run of `msleepInner` or `msleep` leaves alone, and what it adds:
only clock samples, at least one of them. -/
def OnlySamples (clk : Nat → Nat) (p q : Proc) : Prop :=
  q.hSerial = p.hSerial ∧ q.fds = p.fds ∧ q.dtr = p.dtr ∧ p.tick < q.tick ∧
  q.trace = p.trace ++ samples clk p.tick q.tick

/-- The control-line recorder of the specification: the state of the DTR line
last commanded in a sequence of calls, `none` when there is no such command. -/
def commandedDtr : List Call → Option Bool
  | [] => none
  | c :: cs =>
    match commandedDtr cs with
    | some b => some b
    | none =>
      match c with
      | Call.ioctl _ IoctlReq.TIOCMBIS bits _ => if bits = TIOCM_DTR then some true else none
      | Call.ioctl _ IoctlReq.TIOCMBIC bits _ => if bits = TIOCM_DTR then some false else none
      | _ => none

/-- One transport operation with the answers the device would give. -/
inductive TransportOp where
  | tx (n dev : Int)
  | txwu (n waitu dev : Int)
  | rx (n dev : Int)
  | rx_timeout (n timeout pollDev readDev : Int)
  deriving DecidableEq, Repr

/-- Runs a transport operation. -/
def TransportOp.run (serialTimeout : Int) (p : Proc) : TransportOp → Int × Proc
  | TransportOp.tx n dev => XBasic.tx p n dev
  | TransportOp.txwu n waitu dev => XBasic.txwu p n waitu dev
  | TransportOp.rx n dev => XBasic.rx p n dev
  | TransportOp.rx_timeout n timeout pollDev readDev =>
    XBasic.rx_timeout serialTimeout p n timeout pollDev readDev

/-- The failure value of a transport operation. -/
def TransportOp.failure (serialTimeout : Int) : TransportOp → Int
  | TransportOp.tx _ _ => 0
  | TransportOp.txwu _ _ _ => 0
  | TransportOp.rx _ _ => 0
  | TransportOp.rx_timeout _ _ _ _ => serialTimeout

/-- The requested length of a write operation is positive. -/
def TransportOp.positive : TransportOp → Prop
  | TransportOp.tx n _ => 0 < n
  | TransportOp.txwu n _ _ => 0 < n
  | _ => True

/-- Runs transport operations one after the other. -/
def runOps (serialTimeout : Int) (p : Proc) (ops : List TransportOp) : Proc :=
  ops.foldl (fun q op => (TransportOp.run serialTimeout q op).2) p

/-- The number of bytes a call moved between the program and the device. -/
def bytesMoved : Call → Int
  | Call.sysread _ _ res => max res 0
  | Call.syswrite _ _ res => max res 0
  | _ => 0

/-- The state of a `PortListener` after its constructor (`port = NULL`; the
editor pointer is set later by `setTerminalWindow`). -/
def PortListener.new : PortListener := { port := none, textEditor := none, events := [] }

/-- The number of port objects created and not yet deleted. -/
def livePorts : List PortEvent → Int
  | [] => 0
  | PortEvent.newPort _ :: es => livePorts es + 1
  | PortEvent.deletePort _ :: es => livePorts es - 1
  | _ :: es => livePorts es

/-- Calls `PortListener::init` for each target of a list in turn. -/
def initAll (l : PortListener) (targets : List (String × Nat)) : PortListener :=
  targets.foldl (fun q t => PortListener.init q t.1 t.2) l

/-! # Theorems -/

/-! ## Helper lemmas -/

theorem toInt32_of_range (x : Int) (h1 : -2147483648 ≤ x) (h2 : x ≤ 2147483647) :
    toInt32 x = x := by
  unfold toInt32
  omega

/-- The result of `serial_init` on a supported baud rate and a target that opens. -/
theorem serial_init_ok (p : Proc) (port : String) (baud : Nat) (fd : Nat)
    (hb : baud = 0 ∨ baud = 115200 ∨ baud = 57600 ∨ baud = 38400) :
    serial_init p port baud (some fd) =
      (Outcome.ret (fd : Int),
       { p with
          hSerial := (fd : Int),
          fds := p.fds ++ [(fd : Int)],
          trace := p.trace ++
            [Call.sysopen port (O_RDWR ||| O_NOCTTY) (fd : Int),
             Call.tcflush (fd : Int) TCIFLUSH,
             Call.tcsetattr (fd : Int) TCSANOW
               { Termios.zero with
                   c_cflag :=
                     (if baud = 57600 then B57600 else if baud = 38400 then B38400 else B115200)
                       ||| CS8 ||| CLOCAL ||| CREAD,
                   c_iflag := IGNPAR ||| ICRNL,
                   c_oflag := 0,
                   c_lflag := 0 }] }) := by
  have hne : ¬ ((fd : Int) = -1) := by omega
  rcases hb with h | h | h | h <;> subst h <;>
    simp [serial_init, sysOpen, Proc.log, sysTcflush, sysTcsetattr, hne]

/-! ## C1: unsupported baud rates -/

/-- C1 (as stated, refuted): with the unsupported baud 9600 and a target that
can be opened, it is not the case that the calls of `serial_init` contain no
open of the device: the device is opened as descriptor 3 before the baud rate
is looked at. -/
theorem serial_init_unsupported_baud_opens_device :
    ¬ (∀ c ∈ (serial_init procInit "/dev/ttyUSB0" 9600 (some 3)).2.trace,
        (∀ port flags res, c ≠ Call.sysopen port flags res) ∧
        (∀ fd q, c ≠ Call.tcflush fd q) ∧
        (∀ fd a t, c ≠ Call.tcsetattr fd a t)) := by
  intro h
  have h1 := h (Call.sysopen "/dev/ttyUSB0" 258 3) (by decide)
  exact h1.1 "/dev/ttyUSB0" 258 3 rfl

/-- C1 (amended): for a baud rate outside 0, 115200, 57600, 38400,
`serial_init` first opens the target.  When the open fails it reports that and
returns 0.  When the open succeeds it prints the unsupported-baud message,
closes the descriptor it has just opened and ends the process with status 2.
Either way the calls it makes contain no flush and no attribute setting, and
the descriptor it opened is not left open. -/
theorem serial_init_unsupported_baud (p : Proc) (port : String) (baud : Nat) (os : Option Nat)
    (hb : baud ≠ 0 ∧ baud ≠ 115200 ∧ baud ≠ 57600 ∧ baud ≠ 38400) :
    (serial_init p port baud os).1 =
        (match os with
         | none => Outcome.ret 0
         | some _ => Outcome.exited 2) ∧
    (serial_init p port baud os).2.trace = p.trace ++
        (match os with
         | none =>
           [Call.sysopen port (O_RDWR ||| O_NOCTTY) (-1),
            Call.printf "Invalid file handle for serial port '%s'\n",
            Call.printf "Error '%s'\n"]
         | some fd =>
           [Call.sysopen port (O_RDWR ||| O_NOCTTY) (fd : Int),
            Call.printf
              "Unsupported baudrate. Use /dev/tty*:115200, /dev/tty*:57600, or /dev/tty*:38400\n",
            Call.sysclose (fd : Int) 0,
            Call.sysexit 2]) ∧
    (∀ fd : Nat, os = some fd → (fd : Int) ∉ (serial_init p port baud os).2.fds) := by
  obtain ⟨h0, h1, h2, h3⟩ := hb
  cases os with
  | none =>
    simp [serial_init, sysOpen, Proc.log]
  | some fd =>
    have hne : ¬ ((fd : Int) = -1) := by omega
    simp [serial_init, sysOpen, Proc.log, serial_done, sysClose, hne, h0, h1, h2, h3]

/-- Witness of C1 (amended) at baud 9600. -/
theorem serial_init_unsupported_baud_witness :
    ((9600 : Nat) ≠ 0 ∧ (9600 : Nat) ≠ 115200 ∧ (9600 : Nat) ≠ 57600 ∧ (9600 : Nat) ≠ 38400) ∧
    (serial_init procInit "/dev/ttyUSB0" 9600 (some 3)).1 = Outcome.exited 2 ∧
    (serial_init procInit "/dev/ttyUSB0" 9600 (some 3)).2.trace = procInit.trace ++
      [Call.sysopen "/dev/ttyUSB0" (O_RDWR ||| O_NOCTTY) 3,
       Call.printf
         "Unsupported baudrate. Use /dev/tty*:115200, /dev/tty*:57600, or /dev/tty*:38400\n",
       Call.sysclose 3 0,
       Call.sysexit 2] ∧
    (∀ fd : Nat, some 3 = some fd →
      (fd : Int) ∉ (serial_init procInit "/dev/ttyUSB0" 9600 (some 3)).2.fds) :=
  ⟨by decide, serial_init_unsupported_baud procInit "/dev/ttyUSB0" 9600 (some 3) (by decide)⟩

/-! ## C2: supported baud rates -/

/-- C2: for a baud rate among 0, 115200, 57600, 38400 and a target that the
system opens as descriptor `fd`, `serial_init` returns `fd`, and the calls it
makes are exactly the open, the flush of pending input and one
attribute setting, with control flags rate | CS8 | CLOCAL | CREAD (rate
B115200 for 0 and 115200, B57600 for 57600, B38400 for 38400), input flags
IGNPAR | ICRNL, output flags 0 and local flags 0. -/
theorem serial_init_supported_baud (p : Proc) (port : String) (baud : Nat) (fd : Nat)
    (hb : baud = 0 ∨ baud = 115200 ∨ baud = 57600 ∨ baud = 38400) :
    (serial_init p port baud (some fd)).1 = Outcome.ret (fd : Int) ∧
    (serial_init p port baud (some fd)).2.hSerial = (fd : Int) ∧
    (serial_init p port baud (some fd)).2.trace = p.trace ++
      [Call.sysopen port (O_RDWR ||| O_NOCTTY) (fd : Int),
       Call.tcflush (fd : Int) TCIFLUSH,
       Call.tcsetattr (fd : Int) TCSANOW
         { Termios.zero with
             c_cflag :=
               (if baud = 57600 then B57600 else if baud = 38400 then B38400 else B115200)
                 ||| CS8 ||| CLOCAL ||| CREAD,
             c_iflag := IGNPAR ||| ICRNL,
             c_oflag := 0,
             c_lflag := 0 }] := by
  rw [serial_init_ok p port baud fd hb]
  exact ⟨rfl, rfl, rfl⟩

/-- Witness of C2 at baud 57600. -/
theorem serial_init_supported_baud_witness :
    ((57600 : Nat) = 0 ∨ (57600 : Nat) = 115200 ∨ (57600 : Nat) = 57600 ∨
      (57600 : Nat) = 38400) ∧
    (serial_init procInit "/dev/ttyUSB0" 57600 (some 3)).1 = Outcome.ret 3 ∧
    (serial_init procInit "/dev/ttyUSB0" 57600 (some 3)).2.hSerial = 3 ∧
    (serial_init procInit "/dev/ttyUSB0" 57600 (some 3)).2.trace = procInit.trace ++
      [Call.sysopen "/dev/ttyUSB0" (O_RDWR ||| O_NOCTTY) 3,
       Call.tcflush 3 TCIFLUSH,
       Call.tcsetattr 3 TCSANOW
         { Termios.zero with
             c_cflag :=
               (if 57600 = 57600 then B57600 else if 57600 = 38400 then B38400 else B115200)
                 ||| CS8 ||| CLOCAL ||| CREAD,
             c_iflag := IGNPAR ||| ICRNL,
             c_oflag := 0,
             c_lflag := 0 }] :=
  ⟨by decide, serial_init_supported_baud procInit "/dev/ttyUSB0" 57600 3 (by decide)⟩

/-! ## C3: `tx` and `txwu` -/

/-- C3: `tx` and `txwu` make exactly one write call; with `r` its outcome, they
return `n` when `r = n` and 0 when `r` differs from `n`, so that a write of
fewer than `n` bytes (or a failed one) is reported as an error.  After a
failed write `txwu` does not pause. -/
theorem tx_txwu_single_write (p : Proc) (n waitu dev r : Int)
    (hn : INT_MIN ≤ n ∧ n ≤ INT_MAX)
    (hr : (sysWrite p p.hSerial n dev).1 = r) :
    (tx p n dev).1 = (if r = n then n else 0) ∧
    (tx p n dev).2.trace = p.trace ++ Call.syswrite p.hSerial n r ::
        (if r = n then [] else [Call.printf "Error writing port\n"]) ∧
    (txwu p n waitu dev).1 = (if r = n then n else 0) ∧
    (txwu p n waitu dev).2.trace = p.trace ++ Call.syswrite p.hSerial n r ::
        (if r = n then [Call.sysselect waitu] else [Call.printf "Error writing port\n"]) ∧
    (0 ≤ n → r < n → (tx p n dev).1 = 0 ∧ (txwu p n waitu dev).1 = 0) := by
  obtain ⟨hlo, hhi⟩ := hn
  simp only [INT_MIN, INT_MAX] at hlo hhi
  simp only [sysWrite] at hr
  by_cases h : r = n
  · subst h
    have hc := toInt32_of_range r hlo hhi
    simp [tx, txwu, sysWrite, Proc.log, hr, hc]
  · simp [tx, txwu, sysWrite, Proc.log, hr, h]

/-- Witness of C3: a short write of 2 bytes out of 5 on an open descriptor. -/
theorem tx_txwu_single_write_witness :
    ((INT_MIN ≤ 5 ∧ (5 : Int) ≤ INT_MAX) ∧ (sysWrite procOpen3 procOpen3.hSerial 5 2).1 = 2) ∧
    (tx procOpen3 5 2).1 = (if (2 : Int) = 5 then 5 else 0) :=
  ⟨⟨by decide, by decide⟩,
   (tx_txwu_single_write procOpen3 5 0 2 2 (by decide) (by decide)).1⟩

/-! ## C4: `rx_timeout` -/

/-- C4: with a capacity `n ≥ 1`, a read that delivers at most `n` and a
`SERIAL_TIMEOUT` that is not a positive count, `rx_timeout` returns either a
count between 1 and `n` or `SERIAL_TIMEOUT`; it returns a count exactly when
the poll reported readiness and the read delivered more than zero bytes (the
count is then what the read delivered); it returns `SERIAL_TIMEOUT` when the
poll reports nothing, and then makes no read call; a result 0 is never a
count. -/
theorem rx_timeout_count_or_timeout (serialTimeout : Int) (p : Proc) (n timeout pollDev readDev : Int)
    (pr r : Int)
    (hn : 1 ≤ n ∧ n ≤ INT_MAX)
    (hst : INT_MIN ≤ serialTimeout ∧ serialTimeout < 1)
    (hpr : (sysPoll p p.hSerial timeout pollDev).1 = pr)
    (hr : (sysRead p p.hSerial n readDev).1 = r)
    (hrn : r ≤ n) :
    ((rx_timeout serialTimeout p n timeout pollDev readDev).1 = serialTimeout ∨
      (1 ≤ (rx_timeout serialTimeout p n timeout pollDev readDev).1 ∧
        (rx_timeout serialTimeout p n timeout pollDev readDev).1 ≤ n)) ∧
    ((1 ≤ (rx_timeout serialTimeout p n timeout pollDev readDev).1 ∧
        (rx_timeout serialTimeout p n timeout pollDev readDev).1 ≤ n) ↔ (pr > 0 ∧ r > 0)) ∧
    (pr > 0 → r > 0 → (rx_timeout serialTimeout p n timeout pollDev readDev).1 = r) ∧
    (pr ≤ 0 → (rx_timeout serialTimeout p n timeout pollDev readDev).1 = serialTimeout ∧
      (rx_timeout serialTimeout p n timeout pollDev readDev).2.trace =
        p.trace ++ [Call.syspoll p.hSerial timeout pr]) ∧
    (pr > 0 → (rx_timeout serialTimeout p n timeout pollDev readDev).2.trace =
        p.trace ++ [Call.syspoll p.hSerial timeout pr, Call.sysread p.hSerial n r, Call.fflush]) ∧
    ((rx_timeout serialTimeout p n timeout pollDev readDev).1 = 0 → serialTimeout = 0) := by
  obtain ⟨hn1, hn2⟩ := hn
  obtain ⟨hs1, hs2⟩ := hst
  simp only [INT_MIN, INT_MAX] at hn2 hs1
  simp only [sysPoll] at hpr
  simp only [sysRead] at hr
  have hcs := toInt32_of_range serialTimeout hs1 (by omega)
  by_cases hp : pr > 0
  · by_cases hr0 : r > 0
    · have hcr := toInt32_of_range r (by omega) (by omega)
      simp [rx_timeout, sysPoll, sysRead, Proc.log, hpr, hr, hp, hr0, hcr]
      omega
    · simp [rx_timeout, sysPoll, sysRead, Proc.log, hpr, hr, hp, hr0, hcs]
      omega
  · simp [rx_timeout, sysPoll, sysRead, Proc.log, hpr, hr, hp, hcs]
    omega

/-- Witness of C4: 3 bytes arrive within the deadline, `SERIAL_TIMEOUT` taken
as -1: the result is the count 3. -/
theorem rx_timeout_count_or_timeout_witness :
    ((1 ≤ (16 : Int) ∧ (16 : Int) ≤ INT_MAX) ∧ (INT_MIN ≤ (-1 : Int) ∧ (-1 : Int) < 1) ∧
      (sysPoll procOpen3 procOpen3.hSerial 1000 1).1 = 1 ∧
      (sysRead procOpen3 procOpen3.hSerial 16 3).1 = 3 ∧ (3 : Int) ≤ 16) ∧
    (rx_timeout (-1) procOpen3 16 1000 1 3).1 = 3 :=
  ⟨⟨by decide, by decide, by decide, by decide, by decide⟩,
   (rx_timeout_count_or_timeout (-1) procOpen3 16 1000 1 3 1 3
      (by decide) (by decide) (by decide) (by decide) (by decide)).2.2.1
      (by decide) (by decide)⟩

/-! ## C5: `rx` -/

/-- C5: `rx` makes one read call; with `r` its outcome (one that fits the
`int` result), `rx` returns 0 when `r = 0` and when `r < 0`, and `r` when
`r ≥ 1`; the result is never negative. -/
theorem rx_collapses_errors (p : Proc) (n dev r : Int)
    (hr : (sysRead p p.hSerial n dev).1 = r)
    (hmax : r ≤ INT_MAX) :
    (r = 0 → (rx p n dev).1 = 0) ∧
    (r < 0 → (rx p n dev).1 = 0) ∧
    (1 ≤ r → (rx p n dev).1 = r) ∧
    0 ≤ (rx p n dev).1 ∧
    (rx p n dev).2.trace = p.trace ++ [Call.sysread p.hSerial n r] := by
  simp only [INT_MAX] at hmax
  simp only [sysRead] at hr
  by_cases h : r < 1
  · simp [rx, sysRead, Proc.log, hr, h]
  · have hc := toInt32_of_range r (by omega) hmax
    simp [rx, sysRead, Proc.log, hr, h, hc]
    omega

/-- Witness of C5: a failed read on an open descriptor. -/
theorem rx_collapses_errors_witness :
    ((sysRead procOpen3 procOpen3.hSerial 16 (-1)).1 = -1 ∧ (-1 : Int) ≤ INT_MAX) ∧
    ((-1 : Int) < 0 → (rx procOpen3 16 (-1)).1 = 0) :=
  ⟨⟨by decide, by decide⟩,
   (rx_collapses_errors procOpen3 16 (-1) (-1) (by decide) (by decide)).2.1⟩

/-! ## The busy-wait clock -/

theorem samples_self (clk : Nat → Nat) (i : Nat) : samples clk i i = [] := by
  simp [samples]

theorem samples_cons (clk : Nat → Nat) (i j : Nat) (h : i < j) :
    samples clk i j = Call.ftime (clk i) :: samples clk (i + 1) j := by
  unfold samples
  have e : j - i = (j - (i + 1)) + 1 := by omega
  rw [e, List.range'_succ]
  simp

theorem samples_append (clk : Nat → Nat) (i j k : Nat) (h1 : i ≤ j) (h2 : j ≤ k) :
    samples clk i j ++ samples clk j k = samples clk i k := by
  unfold samples
  rw [← List.map_append]
  congr 1
  have e : k - i = (k - j) + (j - i) := by omega
  have e2 : j = i + (j - i) := by omega
  rw [e, ← List.range'_append_1, ← e2]

theorem OnlySamples.trans {clk : Nat → Nat} {p q r : Proc}
    (h1 : OnlySamples clk p q) (h2 : OnlySamples clk q r) : OnlySamples clk p r := by
  obtain ⟨a1, a2, a3, a4, a5⟩ := h1
  obtain ⟨b1, b2, b3, b4, b5⟩ := h2
  refine ⟨by rw [b1, a1], by rw [b2, a2], by rw [b3, a3], by omega, ?_⟩
  rw [b5, a5, List.append_assoc, samples_append clk _ _ _ (by omega) (by omega)]

theorem sysFtime_onlySamples (clk : Nat → Nat) (p : Proc) :
    OnlySamples clk p (sysFtime clk p).2 := by
  refine ⟨rfl, rfl, rfl, ?_, ?_⟩
  · simp [sysFtime]
  · simp [sysFtime, samples]

theorem msleepInner_spec (clk : Nat → Nat) (t0 : Nat) :
    ∀ (fuel : Nat) (p q : Proc), msleepInner clk t0 fuel p = some q →
      OnlySamples clk p q ∧ millitm (clk (q.tick - 1)) ≠ millitm t0 := by
  intro fuel
  induction fuel with
  | zero => intro p q h; simp [msleepInner] at h
  | succ fuel ih =>
    intro p q h
    simp only [msleepInner] at h
    by_cases hm : millitm (sysFtime clk p).1 = millitm t0
    · rw [if_pos hm] at h
      obtain ⟨h1, h2⟩ := ih _ _ h
      exact ⟨(sysFtime_onlySamples clk p).trans h1, h2⟩
    · rw [if_neg hm] at h
      have hq : q = (sysFtime clk p).2 := by
        simpa using h.symm
      subst hq
      refine ⟨sysFtime_onlySamples clk p, ?_⟩
      simpa [sysFtime] using hm

theorem clock_mono (clk : Nat → Nat) (hs : ∀ i, clk i ≤ clk (i + 1)) {i j : Nat} (h : i ≤ j) :
    clk i ≤ clk j :=
  monotone_nat_of_le_succ hs h

theorem msleep_spec (clk : Nat → Nat) (hs : ∀ i, clk i ≤ clk (i + 1)) :
    ∀ (fuel : Nat) (ms : Int) (p q : Proc), msleep clk fuel ms p = some q →
      OnlySamples clk p q ∧ (clk p.tick : Int) + max ms 0 + 1 ≤ (clk (q.tick - 1) : Int) := by
  intro fuel
  induction fuel with
  | zero => intro ms p q h; simp [msleep] at h
  | succ fuel ih =>
    intro ms p q h
    simp only [msleep] at h
    cases hin : msleepInner clk (sysFtime clk p).1 fuel (sysFtime clk p).2 with
    | none => rw [hin] at h; simp at h
    | some p2 =>
      rw [hin] at h
      simp only at h
      obtain ⟨hp2, hne⟩ := msleepInner_spec clk _ _ _ _ hin
      have hf := sysFtime_onlySamples clk p
      have h02 := hf.trans hp2
      have ht1 : (sysFtime clk p).2.tick = p.tick + 1 := rfl
      have ht0 : (sysFtime clk p).1 = clk p.tick := rfl
      have hlt : p.tick + 1 < p2.tick := by
        have := hp2.2.2.2.1
        omega
      have hle : clk p.tick ≤ clk (p2.tick - 1) := clock_mono clk hs (by omega)
      have hne2 : clk (p2.tick - 1) ≠ clk p.tick := by
        intro e
        apply hne
        rw [ht0, e]
      have hstep : clk p.tick + 1 ≤ clk (p2.tick - 1) := by omega
      by_cases hms : ms > 0
      · rw [if_pos hms] at h
        obtain ⟨hq, hb⟩ := ih _ _ _ h
        refine ⟨h02.trans hq, ?_⟩
        have hle2 : clk (p2.tick - 1) ≤ clk p2.tick := clock_mono clk hs (by omega)
        have e1 : max ms 0 = ms := max_eq_left (by omega)
        have e2 : max (ms - 1) 0 = ms - 1 := max_eq_left (by omega)
        rw [e2] at hb
        rw [e1]
        omega
      · rw [if_neg hms] at h
        have hq : q = p2 := by simpa using h.symm
        subst hq
        refine ⟨h02, ?_⟩
        have e1 : max ms 0 = 0 := max_eq_right (by omega)
        rw [e1]
        omega

theorem msleepInner_mono (clk : Nat → Nat) (t0 : Nat) :
    ∀ (fuel fuel2 : Nat) (p q : Proc), fuel ≤ fuel2 →
      msleepInner clk t0 fuel p = some q → msleepInner clk t0 fuel2 p = some q := by
  intro fuel
  induction fuel with
  | zero => intro fuel2 p q _ h; simp [msleepInner] at h
  | succ fuel ih =>
    intro fuel2 p q hle h
    obtain ⟨k, rfl⟩ : ∃ k, fuel2 = k + 1 := ⟨fuel2 - 1, by omega⟩
    simp only [msleepInner] at h ⊢
    by_cases hm : millitm (sysFtime clk p).1 = millitm t0
    · rw [if_pos hm] at h ⊢
      exact ih _ _ _ (by omega) h
    · rw [if_neg hm] at h ⊢
      exact h

theorem msleep_mono (clk : Nat → Nat) :
    ∀ (fuel fuel2 : Nat) (ms : Int) (p q : Proc), fuel ≤ fuel2 →
      msleep clk fuel ms p = some q → msleep clk fuel2 ms p = some q := by
  intro fuel
  induction fuel with
  | zero => intro fuel2 ms p q _ h; simp [msleep] at h
  | succ fuel ih =>
    intro fuel2 ms p q hle h
    obtain ⟨k, rfl⟩ : ∃ k, fuel2 = k + 1 := ⟨fuel2 - 1, by omega⟩
    simp only [msleep] at h ⊢
    cases hin : msleepInner clk (sysFtime clk p).1 fuel (sysFtime clk p).2 with
    | none => rw [hin] at h; simp at h
    | some p2 =>
      rw [hin] at h
      rw [msleepInner_mono clk _ fuel k _ _ (by omega) hin]
      simp only at h ⊢
      by_cases hms : ms > 0
      · rw [if_pos hms] at h ⊢
        exact ih _ _ _ _ (by omega) h
      · rw [if_neg hms] at h ⊢
        exact h

/-- The inner loop ends once a sample with another millisecond field is
within the fuel. -/
theorem msleepInner_total (clk : Nat → Nat) (t0 : Nat) (j : Nat)
    (hj : millitm (clk j) ≠ millitm t0) :
    ∀ (fuel : Nat) (p : Proc), p.tick ≤ j → j < p.tick + fuel →
      ∃ q, msleepInner clk t0 fuel p = some q := by
  intro fuel
  induction fuel with
  | zero => intro p h1 h2; omega
  | succ fuel ih =>
    intro p h1 h2
    simp only [msleepInner]
    by_cases hm : millitm (sysFtime clk p).1 = millitm t0
    · rw [if_pos hm]
      have hne : p.tick ≠ j := by
        intro e
        apply hj
        rw [← e]
        exact hm
      have ht1 : (sysFtime clk p).2.tick = p.tick + 1 := rfl
      exact ih _ (by omega) (by omega)
    · rw [if_neg hm]
      exact ⟨_, rfl⟩

/-- On a clock that moves by at most one millisecond per sample and keeps
running, a later sample with another millisecond field exists. -/
theorem clock_next_milli (clk : Nat → Nat)
    (hs : ∀ i, clk i ≤ clk (i + 1) ∧ clk (i + 1) ≤ clk i + 1)
    (hrun : ∀ i, ∃ j, clk i < clk j) (i : Nat) :
    ∃ j, i < j ∧ millitm (clk j) ≠ millitm (clk i) := by
  classical
  have hex : ∃ j, clk i < clk j := hrun i
  have hmono : ∀ {a b : Nat}, a ≤ b → clk a ≤ clk b :=
    fun h => clock_mono clk (fun k => (hs k).1) h
  let j := Nat.find hex
  have hj : clk i < clk j := Nat.find_spec hex
  have hij : i < j := by
    by_contra hc
    have := hmono (show j ≤ i by omega)
    omega
  have hprev : ¬ clk i < clk (j - 1) := Nat.find_min hex (by omega)
  have hstep := (hs (j - 1)).2
  have e : j - 1 + 1 = j := by omega
  rw [e] at hstep
  have hle := hmono (show i ≤ j - 1 by omega)
  have hval : clk j = clk i + 1 := by omega
  refine ⟨j, hij, ?_⟩
  unfold millitm
  rw [hval]
  omega

theorem msleep_total (clk : Nat → Nat)
    (hs : ∀ i, clk i ≤ clk (i + 1) ∧ clk (i + 1) ≤ clk i + 1)
    (hrun : ∀ i, ∃ j, clk i < clk j) :
    ∀ (n : Nat) (ms : Int) (p : Proc), ms ≤ n → ∃ fuel q, msleep clk fuel ms p = some q := by
  intro n
  induction n with
  | zero =>
    intro ms p hms
    obtain ⟨j, hij, hj⟩ := clock_next_milli clk hs hrun p.tick
    obtain ⟨p2, hp2⟩ := msleepInner_total clk (clk p.tick) j hj (j + 1) (sysFtime clk p).2
      (by show p.tick + 1 ≤ j; omega) (by show j < p.tick + 1 + (j + 1); omega)
    refine ⟨j + 2, p2, ?_⟩
    simp only [msleep]
    have ht0 : (sysFtime clk p).1 = clk p.tick := rfl
    rw [ht0, hp2]
    simp only
    rw [if_neg (by simpa using hms)]
  | succ n ih =>
    intro ms p hms
    obtain ⟨j, hij, hj⟩ := clock_next_milli clk hs hrun p.tick
    obtain ⟨p2, hp2⟩ := msleepInner_total clk (clk p.tick) j hj (j + 1) (sysFtime clk p).2
      (by show p.tick + 1 ≤ j; omega) (by show j < p.tick + 1 + (j + 1); omega)
    obtain ⟨f2, q, hq⟩ := ih (ms - 1) p2 (by push_cast at hms; omega)
    have ht0 : (sysFtime clk p).1 = clk p.tick := rfl
    by_cases hpos : ms > 0
    · refine ⟨max (j + 1) f2 + 1, q, ?_⟩
      simp only [msleep]
      rw [ht0, msleepInner_mono clk _ (j + 1) _ _ _ (le_max_left _ _) hp2]
      simp only
      rw [if_pos hpos]
      exact msleep_mono clk f2 _ _ _ _ (le_max_right _ _) hq
    · refine ⟨j + 2, p2, ?_⟩
      simp only [msleep]
      rw [ht0, hp2]
      simp only
      rw [if_neg hpos]

/-! ## C7: `msleep` does not return early -/

/-- C7: on a non-decreasing clock whose consecutive samples differ by at most
one millisecond, a call `msleep(ms)` with `ms ≥ 0` that returns has taken the
samples `p.tick, ..., q.tick - 1` and nothing else, and the last of them is at
least `ms` milliseconds after the first; and when the clock keeps running the
call does return. -/
theorem msleep_not_early (clk : Nat → Nat) (ms : Int) (p : Proc)
    (hs : ∀ i, clk i ≤ clk (i + 1) ∧ clk (i + 1) ≤ clk i + 1)
    (hms : 0 ≤ ms) :
    (∀ fuel q, msleep clk fuel ms p = some q →
      p.tick < q.tick ∧
      q.trace = p.trace ++ samples clk p.tick q.tick ∧
      ms ≤ (clk (q.tick - 1) : Int) - (clk p.tick : Int)) ∧
    ((∀ i, ∃ j, clk i < clk j) → ∃ fuel q, msleep clk fuel ms p = some q) := by
  constructor
  · intro fuel q h
    obtain ⟨hq, hb⟩ := msleep_spec clk (fun i => (hs i).1) fuel ms p q h
    refine ⟨hq.2.2.2.1, hq.2.2.2.2, ?_⟩
    have e1 : max ms 0 = ms := max_eq_left hms
    rw [e1] at hb
    omega
  · intro hrun
    exact msleep_total clk hs hrun ms.toNat ms p (by omega)

/-- Witness of C7: the example clock and `ms = 2`: the call returns, and not
before 2 ms have passed. -/
theorem msleep_not_early_witness :
    ((∀ i : Nat, halfClock i ≤ halfClock (i + 1) ∧ halfClock (i + 1) ≤ halfClock i + 1) ∧
      (0 : Int) ≤ 2) ∧
    (∀ fuel q, msleep halfClock fuel 2 procOpen3 = some q →
      procOpen3.tick < q.tick ∧
      q.trace = procOpen3.trace ++ samples halfClock procOpen3.tick q.tick ∧
      (2 : Int) ≤ (halfClock (q.tick - 1) : Int) - (halfClock procOpen3.tick : Int)) ∧
    (∃ fuel q, msleep halfClock fuel 2 procOpen3 = some q) :=
  ⟨⟨fun i => ⟨by unfold halfClock; omega, by unfold halfClock; omega⟩, by decide⟩,
   (msleep_not_early halfClock 2 procOpen3
      (fun i => ⟨by unfold halfClock; omega, by unfold halfClock; omega⟩) (by decide)).1,
   (msleep_not_early halfClock 2 procOpen3
      (fun i => ⟨by unfold halfClock; omega, by unfold halfClock; omega⟩) (by decide)).2
      (fun i => ⟨i + 2, by unfold halfClock; omega⟩)⟩

/-! ## C6: `hwreset` -/

theorem commandedDtr_append_of_some (a b : List Call) (v : Bool)
    (h : commandedDtr b = some v) : commandedDtr (a ++ b) = some v := by
  induction a with
  | nil => simpa using h
  | cons c cs ih => simp [commandedDtr, ih]

theorem commandedDtr_samples (clk : Nat → Nat) (i j : Nat) :
    commandedDtr (samples clk i j) = none := by
  unfold samples
  generalize List.range' i (j - i) = l
  induction l with
  | nil => rfl
  | cons c cs ih => simp [commandedDtr, ih]

theorem commandedDtr_clear (clk : Nat → Nat) (a : List Call) (fd r : Int) (i j : Nat) :
    commandedDtr (a ++ Call.ioctl fd IoctlReq.TIOCMBIC TIOCM_DTR r :: samples clk i j)
      = some false := by
  apply commandedDtr_append_of_some
  simp [commandedDtr, commandedDtr_samples]

/-- The result of a modem-control request and the state it leaves. -/
theorem sysIoctl_spec (p : Proc) (fd : Int) (req : IoctlReq) (bits : Nat) (ok : Bool) :
    (sysIoctl p fd req bits ok).1 = (if fd ∈ p.fds ∧ ok = true then 0 else -1) ∧
    (sysIoctl p fd req bits ok).2.hSerial = p.hSerial ∧
    (sysIoctl p fd req bits ok).2.fds = p.fds ∧
    (sysIoctl p fd req bits ok).2.tick = p.tick ∧
    (sysIoctl p fd req bits ok).2.trace =
      p.trace ++ [Call.ioctl fd req bits (if fd ∈ p.fds ∧ ok = true then 0 else -1)] ∧
    ((fd ∈ p.fds ∧ ok = true) → (sysIoctl p fd req bits ok).2.dtr =
      (match req with
       | IoctlReq.TIOCMBIS => true
       | IoctlReq.TIOCMBIC => false)) := by
  by_cases h : fd ∈ p.fds ∧ ok = true
  · simp only [sysIoctl, if_pos h]
    simp
  · simp only [sysIoctl, if_neg h, Proc.log]
    simp [h]

/-- The DTR line after a modem-control request: driven when the request
succeeded, left as it was when it failed. -/
theorem sysIoctl_dtr (p : Proc) (fd : Int) (req : IoctlReq) (bits : Nat) (ok : Bool) :
    (sysIoctl p fd req bits ok).2.dtr =
      (if fd ∈ p.fds ∧ ok = true then
        (match req with
         | IoctlReq.TIOCMBIS => true
         | IoctlReq.TIOCMBIC => false)
       else p.dtr) := by
  by_cases h : fd ∈ p.fds ∧ ok = true
  · simp only [sysIoctl, if_pos h]
  · simp only [sysIoctl, if_neg h, Proc.log]

/-- C6 (as stated, refuted): with the device open as descriptor 3, the first
modem-control request accepted and the second one refused, `hwreset` returns
with the DTR line still asserted: the result of the request is not read. -/
theorem hwreset_failed_clear_leaves_line_asserted :
    (hwreset halfClock 110 procOpen3 true false).map Proc.dtr = some true ∧
    ¬ (∀ q, hwreset halfClock 110 procOpen3 true false = some q → q.dtr = false) := by
  have h : (hwreset halfClock 110 procOpen3 true false).map Proc.dtr = some true := by decide
  refine ⟨h, ?_⟩
  intro hall
  cases hq : hwreset halfClock 110 procOpen3 true false with
  | none => rw [hq] at h; simp at h
  | some q =>
    rw [hq] at h
    have h1 : q.dtr = true := by simpa using h
    have h2 := hall q hq
    rw [h1] at h2
    exact Bool.noConfusion h2

/-- C6 (amended): on a non-decreasing clock whose consecutive samples differ
by at most one millisecond, a call of `hwreset` that returns has made exactly
these calls, whatever the two modem-control requests answer: the request that
sets DTR, the clock samples of `msleep(25)`, the request that clears DTR, the
clock samples of `msleep(100)`.  The samples between the two requests span at
least 25 ms and those after the second at least 100 ms, and the line state
last commanded is deasserted.  The line itself does not change during either
sleep.  During the first sleep it is asserted when the first request
succeeded, and otherwise as it was before the call.  On return it is
deasserted when the second request succeeded; when that one failed it is
asserted if the first succeeded, and otherwise as it was before the call.
When the clock keeps running the call does return. -/
theorem hwreset_sequence (clk : Nat → Nat) (p : Proc) (ok1 ok2 : Bool)
    (hs : ∀ i, clk i ≤ clk (i + 1) ∧ clk (i + 1) ≤ clk i + 1) :
    (∀ fuel q, hwreset clk fuel p ok1 ok2 = some q →
      ∃ p2 : Proc,
        msleep clk fuel 25 (sysIoctl p p.hSerial IoctlReq.TIOCMBIS TIOCM_DTR ok1).2 = some p2 ∧
        msleep clk fuel 100 (sysIoctl p2 p2.hSerial IoctlReq.TIOCMBIC TIOCM_DTR ok2).2
          = some q ∧
        p.tick < p2.tick ∧ p2.tick < q.tick ∧
        q.trace = p.trace ++
          Call.ioctl p.hSerial IoctlReq.TIOCMBIS TIOCM_DTR
              (if p.hSerial ∈ p.fds ∧ ok1 = true then 0 else -1) ::
            samples clk p.tick p2.tick ++
          Call.ioctl p.hSerial IoctlReq.TIOCMBIC TIOCM_DTR
              (if p.hSerial ∈ p.fds ∧ ok2 = true then 0 else -1) ::
            samples clk p2.tick q.tick ∧
        (25 : Int) ≤ (clk (p2.tick - 1) : Int) - (clk p.tick : Int) ∧
        (100 : Int) ≤ (clk (q.tick - 1) : Int) - (clk p2.tick : Int) ∧
        commandedDtr q.trace = some false ∧
        p2.dtr = (sysIoctl p p.hSerial IoctlReq.TIOCMBIS TIOCM_DTR ok1).2.dtr ∧
        q.dtr = (sysIoctl p2 p2.hSerial IoctlReq.TIOCMBIC TIOCM_DTR ok2).2.dtr ∧
        p2.dtr = (if p.hSerial ∈ p.fds ∧ ok1 = true then true else p.dtr) ∧
        q.dtr = (if p.hSerial ∈ p.fds ∧ ok2 = true then false
                 else if p.hSerial ∈ p.fds ∧ ok1 = true then true else p.dtr)) ∧
    ((∀ i, ∃ j, clk i < clk j) → ∃ fuel q, hwreset clk fuel p ok1 ok2 = some q) := by
  constructor
  · intro fuel q h
    simp only [hwreset] at h
    obtain ⟨-, a2, a3, a4, a5, -⟩ := sysIoctl_spec p p.hSerial IoctlReq.TIOCMBIS TIOCM_DTR ok1
    have a6 := sysIoctl_dtr p p.hSerial IoctlReq.TIOCMBIS TIOCM_DTR ok1
    simp only at a6
    generalize (sysIoctl p p.hSerial IoctlReq.TIOCMBIS TIOCM_DTR ok1).2 = p1
      at h a2 a3 a4 a5 a6 ⊢
    cases h1 : msleep clk fuel 25 p1 with
    | none => rw [h1] at h; simp at h
    | some p2 =>
      rw [h1] at h
      simp only at h
      obtain ⟨⟨b1, b2, b3, b4, b5⟩, hb⟩ := msleep_spec clk (fun i => (hs i).1) fuel 25 p1 p2 h1
      obtain ⟨-, c2, c3, c4, c5, -⟩ :=
        sysIoctl_spec p2 p2.hSerial IoctlReq.TIOCMBIC TIOCM_DTR ok2
      have c6 := sysIoctl_dtr p2 p2.hSerial IoctlReq.TIOCMBIC TIOCM_DTR ok2
      simp only at c6
      generalize hp3 : (sysIoctl p2 p2.hSerial IoctlReq.TIOCMBIC TIOCM_DTR ok2).2 = p3
        at h c2 c3 c4 c5 c6
      obtain ⟨⟨d1, d2, d3, d4, d5⟩, hd⟩ := msleep_spec clk (fun i => (hs i).1) fuel 100 p3 q h
      have e25 : max (25 : Int) 0 = 25 := by decide
      have e100 : max (100 : Int) 0 = 100 := by decide
      rw [e25] at hb
      rw [e100] at hd
      have hfd : p2.hSerial = p.hSerial := by rw [b1, a2]
      have hfds : p2.fds = p.fds := by rw [b2, a3]
      have htr : q.trace = p.trace ++
          Call.ioctl p.hSerial IoctlReq.TIOCMBIS TIOCM_DTR
              (if p.hSerial ∈ p.fds ∧ ok1 = true then 0 else -1) ::
            samples clk p.tick p2.tick ++
          Call.ioctl p.hSerial IoctlReq.TIOCMBIC TIOCM_DTR
              (if p.hSerial ∈ p.fds ∧ ok2 = true then 0 else -1) ::
            samples clk p2.tick q.tick := by
        rw [d5, c5, b5, a5, c4, a4, hfd, hfds]
        simp
      have hp2 : p2.dtr = (if p.hSerial ∈ p.fds ∧ ok1 = true then true else p.dtr) := by
        rw [b3, a6]
      have hq : q.dtr = (if p.hSerial ∈ p.fds ∧ ok2 = true then false
          else if p.hSerial ∈ p.fds ∧ ok1 = true then true else p.dtr) := by
        rw [d3, c6, hfd, hfds, hp2]
      subst hp3
      refine ⟨p2, rfl, h, by omega, by omega, htr, ?_, ?_, ?_, b3, d3, hp2, hq⟩
      · rw [a4] at hb
        omega
      · rw [c4] at hd
        omega
      · rw [htr]
        have := commandedDtr_clear clk
          (p.trace ++ Call.ioctl p.hSerial IoctlReq.TIOCMBIS TIOCM_DTR
              (if p.hSerial ∈ p.fds ∧ ok1 = true then 0 else -1) ::
            samples clk p.tick p2.tick) p.hSerial
          (if p.hSerial ∈ p.fds ∧ ok2 = true then 0 else -1) p2.tick q.tick
        simpa using this
  · intro hrun
    obtain ⟨f1, p2, h1⟩ := msleep_total clk hs hrun 25 25
      (sysIoctl p p.hSerial IoctlReq.TIOCMBIS TIOCM_DTR ok1).2 (by decide)
    obtain ⟨f2, q, h2⟩ := msleep_total clk hs hrun 100 100
      (sysIoctl p2 p2.hSerial IoctlReq.TIOCMBIC TIOCM_DTR ok2).2 (by decide)
    refine ⟨max f1 f2, q, ?_⟩
    simp only [hwreset]
    rw [msleep_mono clk f1 _ _ _ _ (le_max_left _ _) h1]
    simp only
    exact msleep_mono clk f2 _ _ _ _ (le_max_right _ _) h2

/-- Witness of C6 (amended): the example clock, the device open as descriptor
3 and both requests accepted: the call returns. -/
theorem hwreset_sequence_witness :
    (∀ i : Nat, halfClock i ≤ halfClock (i + 1) ∧ halfClock (i + 1) ≤ halfClock i + 1) ∧
    (∃ fuel q, hwreset halfClock fuel procOpen3 true true = some q) :=
  ⟨fun i => ⟨by unfold halfClock; omega, by unfold halfClock; omega⟩,
   (hwreset_sequence halfClock procOpen3 true true
      (fun i => ⟨by unfold halfClock; omega, by unfold halfClock; omega⟩)).2
      (fun i => ⟨i + 2, by unfold halfClock; omega⟩)⟩

/-! ## C8: operations on a closed connection -/

theorem TransportOp.run_frame (st : Int) (p : Proc) (op : TransportOp) :
    (op.run st p).2.hSerial = p.hSerial ∧ (op.run st p).2.fds = p.fds := by
  cases op with
  | tx n dev =>
    simp only [TransportOp.run, XBasic.tx, sysWrite, Proc.log]
    split_ifs <;> exact ⟨rfl, rfl⟩
  | txwu n waitu dev =>
    simp only [TransportOp.run, XBasic.txwu, sysWrite, Proc.log]
    split_ifs <;> exact ⟨rfl, rfl⟩
  | rx n dev =>
    simp only [TransportOp.run, XBasic.rx, sysRead, Proc.log]
    split_ifs <;> exact ⟨rfl, rfl⟩
  | rx_timeout n timeout pollDev readDev =>
    simp only [TransportOp.run, XBasic.rx_timeout, sysPoll, sysRead, Proc.log]
    split_ifs <;> exact ⟨rfl, rfl⟩

theorem runOps_frame (st : Int) (ops : List TransportOp) :
    ∀ p : Proc, (runOps st p ops).hSerial = p.hSerial ∧ (runOps st p ops).fds = p.fds := by
  induction ops with
  | nil => intro p; exact ⟨rfl, rfl⟩
  | cons op ops ih =>
    intro p
    have h1 := ih (op.run st p).2
    have h2 := TransportOp.run_frame st p op
    simp only [runOps, List.foldl_cons] at h1 ⊢
    exact ⟨h1.1.trans h2.1, h1.2.trans h2.2⟩

/-- On a handle that is a descriptor number but not an open descriptor, an
operation gives its failure value and moves no byte. -/
theorem TransportOp.run_closed (st : Int) (p : Proc) (op : TransportOp)
    (hst : INT_MIN ≤ st ∧ st ≤ INT_MAX)
    (h0 : 0 ≤ p.hSerial) (hc : p.hSerial ∉ p.fds) (hpos : op.positive) :
    (op.run st p).1 = op.failure st ∧
    ∃ calls, (op.run st p).2.trace = p.trace ++ calls ∧ ∀ c ∈ calls, bytesMoved c = 0 := by
  obtain ⟨hs1, hs2⟩ := hst
  simp only [INT_MIN, INT_MAX] at hs1 hs2
  have hcs := toInt32_of_range st hs1 hs2
  cases op with
  | tx n dev =>
    have hn : ¬ ((-1 : Int) = n) := by
      simp only [TransportOp.positive] at hpos
      omega
    refine ⟨by simp [TransportOp.run, TransportOp.failure, XBasic.tx, sysWrite, hc, hn], ?_⟩
    refine ⟨[Call.syswrite p.hSerial n (-1), Call.printf "Error writing port\n"], ?_, ?_⟩
    · simp [TransportOp.run, XBasic.tx, sysWrite, Proc.log, hc, hn]
    · intro c hcm
      simp at hcm
      rcases hcm with rfl | rfl <;> simp [bytesMoved]
  | txwu n waitu dev =>
    have hn : ¬ ((-1 : Int) = n) := by
      simp only [TransportOp.positive] at hpos
      omega
    refine ⟨by simp [TransportOp.run, TransportOp.failure, XBasic.txwu, sysWrite, hc, hn], ?_⟩
    refine ⟨[Call.syswrite p.hSerial n (-1), Call.printf "Error writing port\n"], ?_, ?_⟩
    · simp [TransportOp.run, XBasic.txwu, sysWrite, Proc.log, hc, hn]
    · intro c hcm
      simp at hcm
      rcases hcm with rfl | rfl <;> simp [bytesMoved]
  | rx n dev =>
    refine ⟨by simp [TransportOp.run, TransportOp.failure, XBasic.rx, sysRead, hc], ?_⟩
    refine ⟨[Call.sysread p.hSerial n (-1)], ?_, ?_⟩
    · simp [TransportOp.run, XBasic.rx, sysRead, Proc.log, hc]
    · intro c hcm
      simp at hcm
      subst hcm
      simp [bytesMoved]
  | rx_timeout n timeout pollDev readDev =>
    refine ⟨by simp [TransportOp.run, TransportOp.failure, XBasic.rx_timeout, sysPoll,
      sysRead, Proc.log, hc, h0, hcs], ?_⟩
    refine ⟨[Call.syspoll p.hSerial timeout 1, Call.sysread p.hSerial n (-1), Call.fflush],
      ?_, ?_⟩
    · simp [TransportOp.run, XBasic.rx_timeout, sysPoll, sysRead, Proc.log, hc, h0]
    · intro c hcm
      simp at hcm
      rcases hcm with rfl | rfl | rfl <;> simp [bytesMoved]

theorem serial_done_closed (p : Proc) :
    (serial_done p).hSerial = p.hSerial ∧ p.hSerial ∉ (serial_done p).fds := by
  by_cases h : p.hSerial ∈ p.fds
  · simp [serial_done, sysClose, h]
  · simp [serial_done, sysClose, h, Proc.log]

theorem serial_done_of_closed (q : Proc) (h : q.hSerial ∉ q.fds) :
    (serial_done q).hSerial = q.hSerial ∧ (serial_done q).fds = q.fds := by
  simp [serial_done, sysClose, h, Proc.log]

theorem PortListener.close_idem (l : PortListener) :
    PortListener.close (PortListener.close l) = PortListener.close l := by
  unfold PortListener.close
  cases hp : l.port with
  | none => simp [hp]
  | some prt =>
    by_cases ho : prt.isOpen = true
    · simp [ho]
    · simp [ho, hp]

/-- C8: after a successful `serial_init` followed by `serial_done`, and after
any further transport operations, every transport operation (a write with
`n > 0`, a read, a read with timeout) gives its failure value (0 for `tx`,
`txwu` and `rx`, `SERIAL_TIMEOUT` for `rx_timeout`) and the calls it makes move
no byte; a second `serial_done` leaves the handle and the set of open
descriptors as the first one left them; and `PortListener::close` twice is the
same as once. -/
theorem closed_connection_fails_cleanly (serialTimeout : Int) (p : Proc) (port : String)
    (baud : Nat) (fd : Nat) (ops : List TransportOp) (op : TransportOp)
    (hb : baud = 0 ∨ baud = 115200 ∨ baud = 57600 ∨ baud = 38400)
    (hst : INT_MIN ≤ serialTimeout ∧ serialTimeout ≤ INT_MAX)
    (hpos : op.positive) :
    (serial_init p port baud (some fd)).1 = Outcome.ret (fd : Int) ∧
    ((TransportOp.run serialTimeout
        (runOps serialTimeout (serial_done (serial_init p port baud (some fd)).2) ops) op).1
      = op.failure serialTimeout) ∧
    (∃ calls,
      (TransportOp.run serialTimeout
        (runOps serialTimeout (serial_done (serial_init p port baud (some fd)).2) ops) op).2.trace
      = (runOps serialTimeout (serial_done (serial_init p port baud (some fd)).2) ops).trace
          ++ calls ∧
      ∀ c ∈ calls, bytesMoved c = 0) ∧
    ((serial_done (serial_done (serial_init p port baud (some fd)).2)).hSerial
        = (serial_done (serial_init p port baud (some fd)).2).hSerial ∧
      (serial_done (serial_done (serial_init p port baud (some fd)).2)).fds
        = (serial_done (serial_init p port baud (some fd)).2).fds) ∧
    (∀ l : PortListener, PortListener.close (PortListener.close l) = PortListener.close l) := by
  have hok := serial_init_ok p port baud fd hb
  have hret : (serial_init p port baud (some fd)).1 = Outcome.ret (fd : Int) := by rw [hok]
  have hh : (serial_init p port baud (some fd)).2.hSerial = (fd : Int) := by rw [hok]
  clear hok
  generalize (serial_init p port baud (some fd)).2 = s at hh
  obtain ⟨d1, d2⟩ := serial_done_closed s
  obtain ⟨f1, f2⟩ := runOps_frame serialTimeout ops (serial_done s)
  have h0 : 0 ≤ (runOps serialTimeout (serial_done s) ops).hSerial := by
    rw [f1, d1, hh]
    omega
  have hc : (runOps serialTimeout (serial_done s) ops).hSerial ∉
      (runOps serialTimeout (serial_done s) ops).fds := by
    rw [f1, f2, d1]
    exact d2
  obtain ⟨r1, r2⟩ := TransportOp.run_closed serialTimeout _ op hst h0 hc hpos
  refine ⟨hret, r1, r2, ?_, PortListener.close_idem⟩
  have hn : (serial_done s).hSerial ∉ (serial_done s).fds := by
    rw [d1]
    exact d2
  exact serial_done_of_closed (serial_done s) hn

/-- Witness of C8: open at 115200 baud as descriptor 3, close, one read, then
a write of 3 bytes: the write gives 0. -/
theorem closed_connection_fails_cleanly_witness :
    (((115200 : Nat) = 0 ∨ (115200 : Nat) = 115200 ∨ (115200 : Nat) = 57600 ∨
        (115200 : Nat) = 38400) ∧
      (INT_MIN ≤ (-1 : Int) ∧ (-1 : Int) ≤ INT_MAX) ∧
      TransportOp.positive (TransportOp.tx 3 3)) ∧
    (TransportOp.run (-1)
        (runOps (-1) (serial_done (serial_init procInit "/dev/ttyUSB0" 115200 (some 3)).2)
          [TransportOp.rx 16 5])
        (TransportOp.tx 3 3)).1
      = TransportOp.failure (-1) (TransportOp.tx 3 3) :=
  ⟨⟨by decide, by decide, by show (0 : Int) < 3; decide⟩,
   (closed_connection_fails_cleanly (-1) procInit "/dev/ttyUSB0" 115200 3
      [TransportOp.rx 16 5] (TransportOp.tx 3 3) (by decide) (by decide)
      (by show (0 : Int) < 3; decide)).2.1⟩

/-! ## C9: opening while a connection exists -/

theorem livePorts_append (a b : List PortEvent) :
    livePorts (a ++ b) = livePorts a + livePorts b := by
  induction a with
  | nil => simp [livePorts]
  | cons e es ih =>
    cases e <;> simp [livePorts, ih] <;> omega

theorem PortListener.init_live (l : PortListener) (portName : String) (baud : Nat)
    (h : livePorts l.events = (l.port.toList.length : Int)) :
    livePorts (PortListener.init l portName baud).events =
      ((PortListener.init l portName baud).port.toList.length : Int) := by
  unfold PortListener.init
  cases hp : l.port with
  | none =>
    rw [hp] at h
    simp [PortListener.initNew, livePorts_append, livePorts, h]
  | some prt =>
    rw [hp] at h
    by_cases hn : prt.portName = portName
    · simp [hn, hp, h]
    · simp [hn, PortListener.initNew, livePorts_append, livePorts, h]

theorem initAll_live (targets : List (String × Nat)) :
    ∀ l : PortListener, livePorts l.events = (l.port.toList.length : Int) →
      livePorts (initAll l targets).events = ((initAll l targets).port.toList.length : Int) := by
  induction targets with
  | nil => intro l h; exact h
  | cons t ts ih =>
    intro l h
    simp only [initAll, List.foldl_cons]
    exact ih _ (PortListener.init_live l t.1 t.2 h)

/-- C9 (as stated, refuted): with the device open as descriptor 3 by a first
`serial_init`, a second `serial_init` on the same target is not a no-op (the
handle becomes 4 and two descriptors of the device are open), and a
`serial_init` on another target leaves descriptor 3 open and makes no close
call. -/
theorem serial_init_reopen_not_guarded :
    ¬ ((serial_init (serial_init procInit "/dev/ttyUSB0" 115200 (some 3)).2
          "/dev/ttyUSB0" 115200 (some 4)).2
        = (serial_init procInit "/dev/ttyUSB0" 115200 (some 3)).2) ∧
    (serial_init (serial_init procInit "/dev/ttyUSB0" 115200 (some 3)).2
        "/dev/ttyUSB0" 115200 (some 4)).2.fds = [0, 1, 2, 3, 4] ∧
    ¬ ((3 : Int) ∉ (serial_init (serial_init procInit "/dev/ttyUSB0" 115200 (some 3)).2
          "/dev/ttyUSB1" 115200 (some 4)).2.fds ∨
       Call.sysclose 3 0 ∈ (serial_init (serial_init procInit "/dev/ttyUSB0" 115200 (some 3)).2
          "/dev/ttyUSB1" 115200 (some 4)).2.trace) := by
  decide

/-- C9 (amended): a `PortListener` holds at most one port object: after any
sequence of `init` calls on a new listener the number of port objects created
and not deleted is at most one; `init` with the name of the present port
changes nothing; `init` with another name disconnects and deletes the present
port before it creates, configures and connects the new one.  `serial_init`
has no such guard: whatever connection exists, a call on a supported baud rate
and a target that opens makes the new descriptor the global handle, leaves
every descriptor that was open still open and its calls are the open, the
flush and the attribute setting. -/
theorem reopen_behaviour :
    (∀ targets : List (String × Nat),
      livePorts (initAll PortListener.new targets).events ≤ 1) ∧
    (∀ (l : PortListener) (prt : QextSerialPort) (baud : Nat),
      l.port = some prt → PortListener.init l prt.portName baud = l) ∧
    (∀ (l : PortListener) (prt : QextSerialPort) (portName : String) (baud : Nat),
      l.port = some prt → prt.portName ≠ portName →
      (PortListener.init l portName baud).events = l.events ++
        [PortEvent.disconnectReadyRead prt.portName, PortEvent.deletePort prt.portName,
         PortEvent.newPort portName, PortEvent.connectReadyRead portName] ∧
      (PortListener.init l portName baud).port = some
        { portName := portName, eventDriven := true, baudRate := some baud,
          flowOff := some true, parityNone := some true, dataBits := some 8,
          stopBits := some 1, isOpen := false, connected := true }) ∧
    (∀ (p : Proc) (port : String) (baud : Nat) (fd : Nat),
      (baud = 0 ∨ baud = 115200 ∨ baud = 57600 ∨ baud = 38400) →
      (serial_init p port baud (some fd)).2.hSerial = (fd : Int) ∧
      (serial_init p port baud (some fd)).2.fds = p.fds ++ [(fd : Int)] ∧
      ∃ t, (serial_init p port baud (some fd)).2.trace = p.trace ++
        [Call.sysopen port (O_RDWR ||| O_NOCTTY) (fd : Int),
         Call.tcflush (fd : Int) TCIFLUSH,
         Call.tcsetattr (fd : Int) TCSANOW t]) := by
  refine ⟨?_, ?_, ?_, ?_⟩
  · intro targets
    have h := initAll_live targets PortListener.new (by simp [PortListener.new, livePorts])
    rw [h]
    cases (initAll PortListener.new targets).port <;> simp
  · intro l prt baud hp
    simp [PortListener.init, hp]
  · intro l prt portName baud hp hne
    simp [PortListener.init, hp, hne, PortListener.initNew]
  · intro p port baud fd hb
    rw [serial_init_ok p port baud fd hb]
    exact ⟨rfl, rfl, _, rfl⟩

/-- Witness of C9 (amended): a listener on COM1 asked for COM2, and a second
`serial_init` at 115200 baud. -/
theorem reopen_behaviour_witness :
    (((PortListener.init PortListener.new "COM1" 115200).port = some
        { portName := "COM1", eventDriven := true, baudRate := some 115200,
          flowOff := some true, parityNone := some true, dataBits := some 8,
          stopBits := some 1, isOpen := false, connected := true }) ∧
      ("COM1" ≠ "COM2") ∧
      ((115200 : Nat) = 0 ∨ (115200 : Nat) = 115200 ∨ (115200 : Nat) = 57600 ∨
        (115200 : Nat) = 38400)) ∧
    (PortListener.init (PortListener.init PortListener.new "COM1" 115200) "COM2" 57600).events
      = (PortListener.init PortListener.new "COM1" 115200).events ++
        [PortEvent.disconnectReadyRead "COM1", PortEvent.deletePort "COM1",
         PortEvent.newPort "COM2", PortEvent.connectReadyRead "COM2"] ∧
    (serial_init procOpen3 "/dev/ttyUSB1" 115200 (some 4)).2.fds = procOpen3.fds ++ [4] :=
  ⟨⟨by decide, by decide, by decide⟩,
   (reopen_behaviour.2.2.1 (PortListener.init PortListener.new "COM1" 115200)
      { portName := "COM1", eventDriven := true, baudRate := some 115200,
        flowOff := some true, parityNone := some true, dataBits := some 8,
        stopBits := some 1, isOpen := false, connected := true }
      "COM2" 57600 (by decide) (by decide)).1,
   (reopen_behaviour.2.2.2 procOpen3 "/dev/ttyUSB1" 115200 4 (by decide)).2.1⟩

/-! ## C10: the terminal window -/

/-- C10 (the code at the failing input): on an empty window, when the bytes
0x00 0x41 arrive, `onReadyRead` leaves the window empty, while processing the
bytes one by one appends both of them. -/
theorem onReadyRead_stops_at_nul :
    onReadyRead [] [0, 65] true = ([], []) ∧ specRender [] [0, 65] = [0, 65] ∧
    (onReadyRead [] [0, 65] true).1 ≠ specRender [] [0, 65] := by
  decide

theorem QString.mid_dropLast (t : QString) :
    QString.mid t 0 ((t.length : Int) - 1) = t.dropLast := by
  unfold QString.mid
  cases t with
  | nil => simp
  | cons a as =>
    have h1 : ¬ ((0 : Int) ≥ ((a :: as).length : Int)) := by
      simp only [List.length_cons]
      push_cast
      omega
    have h2 : ¬ (((a :: as).length : Int) - 1 < 0) := by
      simp only [List.length_cons]
      push_cast
      omega
    simp only [if_neg h1, if_neg h2]
    simp [List.dropLast_eq_take]

theorem onReadyReadStep_eq (t : QString) (c : Nat) :
    onReadyReadStep t c = (if c = 8 then t.dropLast else t ++ [c]) := by
  unfold onReadyReadStep
  by_cases h : c = 8
  · simp only [if_pos h]
    exact QString.mid_dropLast t
  · simp only [if_neg h]

theorem foldl_step_eq_specRender (bytes : List Nat) :
    ∀ text : QString, bytes.foldl onReadyReadStep text = specRender text bytes := by
  induction bytes with
  | nil => intro text; rfl
  | cons b bs ih =>
    intro text
    simp only [List.foldl_cons, specRender]
    rw [ih, onReadyReadStep_eq]
    rfl

theorem specRender_no_backspace (bytes : List Nat) (h : 8 ∉ bytes) :
    ∀ text : QString, specRender text bytes = text ++ bytes := by
  induction bytes with
  | nil => intro text; simp [specRender]
  | cons b bs ih =>
    intro text
    have hb : b ≠ 8 := fun e => h (by simp [e])
    have hbs : 8 ∉ bs := fun e => h (by simp [e])
    have := ih hbs (text ++ [b])
    simp only [specRender, List.foldl_cons, if_neg hb] at this ⊢
    rw [this]
    simp

theorem ofCString_no_nul (bytes : List Nat) (h : 0 ∉ bytes) :
    QString.ofCString (bytes ++ [0]) = bytes := by
  unfold QString.ofCString
  induction bytes with
  | nil => simp [List.takeWhile]
  | cons b bs ih =>
    have hb : b ≠ 0 := fun e => h (by simp [e])
    have hbs : 0 ∉ bs := fun e => h (by simp [e])
    have ih2 := ih hbs
    simp only [decide_not] at ih2
    simp [List.takeWhile, hb, ih2]

/-- The part of C10 that holds: when at most 1024 bytes without a NUL arrive
and the read succeeds, the window text after `onReadyRead` is the result of
processing the bytes one by one. -/
theorem onReadyRead_eq_specRender_of_no_nul (text : QString) (bytes : List Nat)
    (hlen : bytes.length ≤ 1024) (hnul : 0 ∉ bytes) :
    onReadyRead text bytes true = (specRender text bytes, []) := by
  have hl : ¬ (bytes.length > 1024) := by omega
  simp only [onReadyRead, if_neg hl]
  have hret : ((bytes.length : Nat) : Int) > -1 := by omega
  simp only [if_true, if_pos hret, List.take_length, List.drop_length,
    ofCString_no_nul bytes hnul]
  by_cases h8 : 8 ∈ bytes
  · have hi : ¬ (QString.indexOf bytes 8 < 0) := by
      simp only [QString.indexOf, if_pos h8]
      omega
    rw [if_neg hi, foldl_step_eq_specRender]
  · have hi : QString.indexOf bytes 8 < 0 := by
      simp only [QString.indexOf, if_neg h8]
      decide
    rw [if_pos hi, specRender_no_backspace bytes h8]

end XBasic
